import Mathlib

/-!
A shallow embedding of the gavcoin dapp `Application` component
(`js/src/dapps/gavcoin/Application/application.js`): the component state,
the startup sequence `attachInterface` (invoked once from
`componentDidMount`), the per-block synchronization handler
`onNewBlockNumber`, and the action-request machinery
(`onAction` / `onActionClose` / `renderModals`).

Embedding conventions:
* `BigNumber` values are exact numbers; raw chain reads (uint256 amounts in
  base units: wei for ether, 10^-6 tokens for gavcoin) are `Nat`, and
  formatted display values (`toFormat`) are `Rat`.
* A promise result is an `Option` (`none` = rejection); `Promise.all` over a
  list of promises is `seqOption`, which rejects iff any element rejects.
* Each `setState` call is one atomic commit of the full component state.
  One invocation of a handler is embedded as the ordered list of `Effect`s
  it performs, plus flags recording whether its (detached) promise chain
  ended in a rejection with no rejection handler attached, and whether the
  handler body threw synchronously to its caller.
-/

namespace Gavcoin

/-- An account row.  `attachInterface` creates it as
`{ address, name: infos[address].name || 'Unnamed', balance: 0 }`; the
`ethBalance` / `gavBalance` / `hasGav` properties do not exist yet at that
point (embedded as `none`) and are first assigned by a completed
synchronization pass. -/
structure Account where
  address : String
  name : String
  balance : ℕ
  ethBalance : Option ℚ
  gavBalance : Option ℚ
  hasGav : Option Bool
  deriving DecidableEq

/-- The `Application` component state: the externally visible Snapshot
(loading, address, totals, accounts, global counters) plus the UI fields.
`inst` embeds the `instance` contract binding, identified by the address it
is bound to (`none` before `attachInterface` publishes). -/
structure AppState where
  action : Option String
  address : Option String
  ethBalance : ℕ
  gavBalance : ℕ
  accounts : List Account
  inst : Option String
  loading : Bool
  blockNumber : Option ℕ
  totalSupply : Option ℕ
  remaining : Option ℕ
  price : Option ℕ
  deriving DecidableEq

/-- The `state = { ... }` initializer of the component. -/
def initialState : AppState :=
  { action := none, address := none, ethBalance := 0, gavBalance := 0,
    accounts := [], inst := none, loading := true, blockNumber := none,
    totalSupply := none, remaining := none, price := none }

/-- One observable side effect of a handler invocation: an atomic
`setState` commit (carrying the full resulting component state), a
`console.log` / `console.error`, or an `api.events` subscription change.
The source never unsubscribes; the constructor exists so that absence is
expressible. -/
inductive Effect where
  | setState (s : AppState)
  | logInfo (msg : String)
  | logError
  | subscribe (eventName : String)
  | unsubscribe (eventName : String)
  deriving DecidableEq

/-- Applying one effect to the externally visible state: a `setState`
commits its state; logs and subscription changes leave it unchanged. -/
def applyEffect (s : AppState) : Effect → AppState
  | .setState s' => s'
  | _ => s

/-- The state visible after a whole effect list has been applied. -/
def applyEffects (s : AppState) (effects : List Effect) : AppState :=
  effects.foldl applyEffect s

/-- The sequence of committed states (the commit points an external
consumer can observe) within an effect list. -/
def committedStates (effects : List Effect) : List AppState :=
  effects.filterMap fun e =>
    match e with
    | .setState s => some s
    | _ => none

/-- Whether the effect list publishes any state (contains a `setState`). -/
def publishesB (effects : List Effect) : Bool :=
  effects.any fun e =>
    match e with
    | .setState _ => true
    | _ => false

/-- Whether the effect list subscribes to any event stream. -/
def subscribesB (effects : List Effect) : Bool :=
  effects.any fun e =>
    match e with
    | .subscribe _ => true
    | _ => false

/-- Whether the effect list logs an error (`console.error`). -/
def logsErrorB (effects : List Effect) : Bool :=
  effects.any fun e =>
    match e with
    | .logError => true
    | _ => false

/-- `Promise.all` over a list of promise results: succeeds with the list of
values iff every element succeeded, rejects otherwise. -/
def seqOption {α : Type} : List (Option α) → Option (List α)
  | [] => some []
  | none :: _ => none
  | some a :: rest => (seqOption rest).map fun as => a :: as

/-- `balances.reduce((total, balance) => total.add(balance), new BigNumber(0))`:
the exact (arbitrary-precision) sum of raw balances. -/
def bigSum (balances : List ℕ) : ℕ :=
  balances.foldl (fun total balance => total + balance) 0

/-- `const DIVISOR = 10 ** 6`. -/
def DIVISOR : ℚ := 10 ^ 6

/-- `Api.format.fromWei`: wei to ether, an exact division by 10^18. -/
def fromWei (wei : ℕ) : ℚ := (wei : ℚ) / 10 ^ 18

/-- `BigNumber#toFormat(dp)`: the numeric value displayed with `dp` decimal
places under the default ROUND_HALF_UP mode (all balances are
non-negative, so half-up is half away from zero). -/
def toFormat (dp : ℕ) (q : ℚ) : ℚ := (⌊q * 10 ^ dp + 1 / 2⌋ : ℚ) / 10 ^ dp

/-- One account's update inside the second `then` of `onNewBlockNumber`:
`account.ethBalance = Api.format.fromWei(ethBalance).toFormat(3)`,
`account.gavBalance = gavBalance.div(DIVISOR).toFormat(6)`,
`account.hasGav = gavBalance.gt(0)`. -/
def updateAccount (account : Account) (gavBalance ethBalance : ℕ) : Account :=
  { account with
    ethBalance := some (toFormat 3 (fromWei ethBalance)),
    gavBalance := some (toFormat 6 ((gavBalance : ℚ) / DIVISOR)),
    hasGav := some (decide (0 < gavBalance)) }

/-- Embeds `accounts.map((account, idx) => ...)` of the second `then`,
where the body reads `gavBalances[idx]` and `ethBalances[idx]`: the two
balance lists were produced by mapping the same `accounts` list (and
`Promise.all` preserves length and order), so the indexed access is
positional recursion over the three aligned lists. -/
def updateAccounts : List Account → List ℕ → List ℕ → List Account
  | account :: accounts, gavBalance :: gavBalances, ethBalance :: ethBalances =>
      updateAccount account gavBalance ethBalance ::
        updateAccounts accounts gavBalances ethBalances
  | _, _, _ => []

/-- The outcome of every chain read issued during one pass:
`instance.totalSupply.call()`, `instance.remaining.call()`,
`instance.price.call()`, `instance.balanceOf.call({}, [address])` and
`api.eth.getBalance(address)`.  `none` = the RPC promise rejects. -/
structure ChainReads where
  totalSupply : Option ℕ
  remaining : Option ℕ
  price : Option ℕ
  balanceOf : String → Option ℕ
  getBalance : String → Option ℕ

/-- The observable result of one invocation of the block handler: the
ordered effects it performs, whether its detached promise chain ended in a
rejection with no handler attached (the source chain has no `catch`), and
whether the handler body threw synchronously to its caller. -/
structure HandlerRun where
  effects : List Effect
  uncaughtRejection : Bool
  thrownSync : Bool
  deriving DecidableEq

/-- The block handler `onNewBlockNumber = (blockNumber) => ...`.

If `state.instance` were null, `instance.totalSupply.call()` would throw a
TypeError synchronously to the caller.  Otherwise the handler builds a
promise chain: `Promise.all` over the three global-counter reads, a first
`setState` committing `blockNumber` / `totalSupply` / `remaining` / `price`,
then `Promise.all` over the two per-account balance batches, then a second
`setState` committing the totals and per-account fields.  Any rejection
skips the remaining `then` steps; the chain has no `catch`, so the
rejection is left uncaught. -/
def onNewBlockNumber (s : AppState) (blockNumber : ℕ) (reads : ChainReads) :
    HandlerRun :=
  match s.inst with
  | none => { effects := [], uncaughtRejection := false, thrownSync := true }
  | some _ =>
    match reads.totalSupply, reads.remaining, reads.price with
    | some totalSupply, some remaining, some price =>
      let s1 : AppState :=
        { s with
          blockNumber := some blockNumber, totalSupply := some totalSupply,
          remaining := some remaining, price := some price }
      let accounts := s1.accounts
      let gavQueries := accounts.map fun account => reads.balanceOf account.address
      let ethQueries := accounts.map fun account => reads.getBalance account.address
      match seqOption gavQueries, seqOption ethQueries with
      | some gavBalances, some ethBalances =>
        let s2 : AppState :=
          { s1 with
            ethBalance := bigSum ethBalances,
            gavBalance := bigSum gavBalances,
            accounts := updateAccounts accounts gavBalances ethBalances }
        { effects := [.setState s1, .setState s2],
          uncaughtRejection := false, thrownSync := false }
      | _, _ =>
        { effects := [.setState s1], uncaughtRejection := true,
          thrownSync := false }
    | _, _, _ => { effects := [], uncaughtRejection := true, thrownSync := false }

/-- The metadata record the identity store returns for one address
(`api.personal.accountsInfo()[address]`); its `name` property may be
absent. -/
structure AccountInfo where
  name : Option String
  deriving DecidableEq

/-- Every external read the startup sequence performs:
`api.ethcore.registryAddress()`, `registry.getAddress.call(...)` (the
gavcoin contract address), `api.personal.listAccounts()` and
`api.personal.accountsInfo()`.  `none` = the promise rejects; the info
mapping returns `none` for an address it has no record for (in which case
`infos[address].name` throws). -/
structure StartupEnv where
  registryAddress : Option String
  getAddress : Option String
  listAccounts : Option (List String)
  accountsInfo : Option (String → Option AccountInfo)

/-- JS `x || fallback` on an optional string: the fallback is taken when
the property is absent (`undefined`) or the string is empty (both are
falsy). -/
def stringOr : Option String → String → String
  | some s, fallback => if s = "" then fallback else s
  | none, fallback => fallback

/-- The account object built per listed address inside `attachInterface`:
`{ address, name: infos[address].name || 'Unnamed', balance: 0 }`. -/
def buildAccount (address : String) (info : AccountInfo) : Account :=
  { address := address, name := stringOr info.name "Unnamed", balance := 0,
    ethBalance := none, gavBalance := none, hasGav := none }

/-- The startup sequence `attachInterface`: resolve the registry address,
log it, `Promise.all` over the gavcoin address lookup and the two account
enumerations, log the contract address, build the account list (throwing
if `infos[address]` is missing), publish the initial Snapshot with
`loading: false` in one `setState`, and only then subscribe
`onNewBlockNumber` to `eth.blockNumber`.  Any rejection or throw anywhere
in the chain skips the remaining steps and reaches the final
`catch(console.error)`. -/
def attachInterface (s : AppState) (env : StartupEnv) : List Effect :=
  match env.registryAddress with
  | none => [.logError]
  | some registryAddress =>
    .logInfo ("the registry was found at " ++ registryAddress) ::
      match env.getAddress, env.listAccounts, env.accountsInfo with
      | some address, some addresses, some infos =>
        .logInfo ("gavcoin was found at " ++ address) ::
          match seqOption
              (addresses.map fun addr => (infos addr).map (buildAccount addr)) with
          | some accounts =>
            [.setState
              { s with
                loading := false, address := some address, inst := some address,
                accounts := accounts },
             .subscribe "eth.blockNumber"]
          | none => [.logError]
      | _, _, _ => [.logError]

/-- `componentDidMount` — the one lifecycle call per session, whose body is
exactly `this.attachInterface()`. -/
def componentDidMount (s : AppState) (env : StartupEnv) : List Effect :=
  attachInterface s env

/-- `onAction = (action) => this.setState({ action })`: the open transition
of the action-request machine, accepting any value. -/
def onAction (s : AppState) (action : String) : AppState :=
  { s with action := some action }

/-- `onActionClose = () => this.setState({ action: null })`: the close
transition. -/
def onActionClose (s : AppState) : AppState :=
  { s with action := none }

/-- One user-driven call into the action-request machine. -/
inductive ActionOp where
  | openA (kind : String)
  | closeA
  deriving DecidableEq

/-- Dispatch of one action-machine call. -/
def applyActionOp (s : AppState) : ActionOp → AppState
  | .openA kind => onAction s kind
  | .closeA => onActionClose s

/-- A finite sequence of open/close calls, applied in order. -/
def runActionOps (s : AppState) (ops : List ActionOp) : AppState :=
  ops.foldl applyActionOp s

/-- The three action kinds `renderModals` recognizes. -/
def actionKinds : List String := ["BuyIn", "Refund", "Transfer"]

/-- Whether every open in the sequence uses one of the three kinds. -/
def opsWellFormed (ops : List ActionOp) : Bool :=
  ops.all fun op =>
    match op with
    | .openA kind => actionKinds.contains kind
    | .closeA => true

/-- The modal element `renderModals` can return, with the props it is
given from the state. -/
inductive ModalView where
  | actionBuyIn (accounts : List Account) (price : Option ℕ)
  | actionRefund (accounts : List Account) (price : Option ℕ)
  | actionTransfer (accounts : List Account)
  deriving DecidableEq

/-- `renderModals()`: a switch on `state.action` returning the matching
modal element, and `null` for every other value — including `null`
itself (the default case). -/
def renderModals (s : AppState) : Option ModalView :=
  match s.action with
  | some action =>
    if action = "BuyIn" then some (.actionBuyIn s.accounts s.price)
    else if action = "Refund" then some (.actionRefund s.accounts s.price)
    else if action = "Transfer" then some (.actionTransfer s.accounts)
    else none
  | none => none

/-- JS truthiness of a possibly-absent boolean property: an absent
(`undefined`) property reads as false. -/
def jsTruthyBool : Option Bool → Bool
  | some b => b
  | none => false

/-- Whether the startup environment makes some step before publication
fail: a rejected registry resolution, contract lookup or account
enumeration, or a listed address missing from the info mapping. -/
def startupFailsB (env : StartupEnv) : Bool :=
  match env.registryAddress, env.getAddress, env.listAccounts, env.accountsInfo with
  | some _, some _, some addresses, some infos =>
      addresses.any fun address => (infos address).isNone
  | _, _, _, _ => true

/-- A fully successful set of chain reads for one pass, given by total
functions for the per-account balances. -/
def allReads (ts rem pr : ℕ) (gav eth : String → ℕ) : ChainReads :=
  { totalSupply := some ts, remaining := some rem, price := some pr,
    balanceOf := fun address => some (gav address),
    getBalance := fun address => some (eth address) }

/-- A fully successful startup environment: every promise resolves and
every listed address has an info record. -/
def allEnv (registryAddress gavcoinAddress : String) (addresses : List String)
    (infoOf : String → AccountInfo) : StartupEnv :=
  { registryAddress := some registryAddress, getAddress := some gavcoinAddress,
    listAccounts := some addresses,
    accountsInfo := some fun address => some (infoOf address) }

/-- A concrete post-startup state with one watched account, used to
evaluate the handler at explicit inputs. -/
def samplePre : AppState :=
  { initialState with
    loading := false, address := some "0xc", inst := some "0xc",
    accounts :=
      [{ address := "0xa", name := "One", balance := 0,
         ethBalance := none, gavBalance := none, hasGav := none }] }

/-- Concrete fully successful reads: total supply 100, remaining 40,
price 2, a token balance of 2000000 base units (2 GAV) and a native
balance of 5 * 10^18 wei (5 ETH). -/
def sampleReads : ChainReads :=
  { totalSupply := some 100, remaining := some 40, price := some 2,
    balanceOf := fun _ => some 2000000,
    getBalance := fun _ => some 5000000000000000000 }

/-- The same reads with every token-balance read failing. -/
def failingReads : ChainReads :=
  { sampleReads with balanceOf := fun _ => none }

/-- The same reads with the totalSupply global read failing. -/
def deadReads : ChainReads :=
  { sampleReads with totalSupply := none }

/-- A startup environment whose registry resolution fails. -/
def failEnv : StartupEnv :=
  { registryAddress := none, getAddress := none, listAccounts := none,
    accountsInfo := none }

/-- An info mapping whose label is present but empty. -/
def emptyLabelInfo : String → AccountInfo := fun _ => { name := some "" }

/-- A successful startup environment listing one address whose stored
label is the empty string. -/
def emptyLabelEnv : StartupEnv :=
  allEnv "0xr" "0xg" ["0xa"] emptyLabelInfo

theorem seqOption_map_some {α β : Type} (f : α → β) :
    ∀ l : List α, seqOption (l.map fun a => some (f a)) = some (l.map f)
  | [] => rfl
  | a :: l => by
      simp [seqOption, seqOption_map_some f l]

theorem seqOption_map_none {α β : Type} (f : α → Option β) {a : α} :
    ∀ {l : List α}, a ∈ l → f a = none → seqOption (l.map f) = none := by
  intro l
  induction l with
  | nil => intro h; cases h
  | cons b l ih =>
      intro hmem hfa
      rcases List.mem_cons.mp hmem with h | h
      · subst h
        simp [seqOption, hfa]
      · cases hb : f b with
        | none => simp [seqOption, hb]
        | some v => simp [seqOption, hb, ih h hfa]

theorem seqOption_map_isSome {α β : Type} (f : α → Option β) :
    ∀ {l : List α} {bs : List β}, seqOption (l.map f) = some bs →
      ∀ a ∈ l, (f a).isSome := by
  intro l
  induction l with
  | nil => intro bs _ a ha; cases ha
  | cons b l ih =>
      intro bs hseq a ha
      cases hb : f b with
      | none => simp [seqOption, hb] at hseq
      | some v =>
          rcases List.mem_cons.mp ha with h | h
          · subst h; simp [hb]
          · have hex : ∃ bs', seqOption (l.map f) = some bs' := by
              simp only [List.map_cons, hb, seqOption] at hseq
              cases hs : seqOption (l.map f) with
              | none => rw [hs] at hseq; simp at hseq
              | some bs' => exact ⟨bs', rfl⟩
            rcases hex with ⟨bs', hbs'⟩
            exact ih hbs' a h

theorem updateAccounts_map (g e : Account → ℕ) :
    ∀ accounts : List Account,
      updateAccounts accounts (accounts.map g) (accounts.map e)
        = accounts.map fun account => updateAccount account (g account) (e account)
  | [] => rfl
  | account :: accounts => by
      simp [updateAccounts, updateAccounts_map g e accounts]

theorem bigSum_eq_sum (balances : List ℕ) : bigSum balances = balances.sum := by
  have aux : ∀ (l : List ℕ) (n : ℕ),
      l.foldl (fun total balance => total + balance) n = n + l.sum := by
    intro l
    induction l with
    | nil => intro n; simp
    | cons b l ih => intro n; simp [ih, Nat.add_assoc]
  simpa using aux balances 0

theorem toFormat_natCast_div_pow (dp : ℕ) (g : ℕ) :
    toFormat dp ((g : ℚ) / 10 ^ dp) = (g : ℚ) / 10 ^ dp := by
  unfold toFormat
  have hpow : ((10 : ℚ) ^ dp) ≠ 0 := by positivity
  rw [div_mul_cancel₀ _ hpow]
  have hfloor : ⌊(g : ℚ) + 1 / 2⌋ = (g : ℤ) := by
    rw [Int.floor_eq_iff]
    constructor
    · push_cast; linarith
    · push_cast; linarith
  rw [hfloor]
  push_cast
  ring

theorem abs_toFormat_sub_le (dp : ℕ) (q : ℚ) :
    |toFormat dp q - q| ≤ 1 / (2 * 10 ^ dp) := by
  unfold toFormat
  have hpow : (0 : ℚ) < 10 ^ dp := by positivity
  have h1 : (⌊q * 10 ^ dp + 1 / 2⌋ : ℚ) ≤ q * 10 ^ dp + 1 / 2 :=
    Int.floor_le _
  have h2 : q * 10 ^ dp + 1 / 2 - 1 < (⌊q * 10 ^ dp + 1 / 2⌋ : ℚ) :=
    Int.sub_one_lt_floor _
  have hrw : (⌊q * 10 ^ dp + 1 / 2⌋ : ℚ) / 10 ^ dp - q
      = ((⌊q * 10 ^ dp + 1 / 2⌋ : ℚ) - q * 10 ^ dp) / 10 ^ dp := by
    field_simp
    ring
  have hc : (1 : ℚ) / (2 * 10 ^ dp) = (1 / 2) / 10 ^ dp :=
    (div_div 1 2 ((10 : ℚ) ^ dp)).symm
  rw [hrw, hc, abs_div, abs_of_pos hpow, div_le_div_iff_of_pos_right hpow, abs_le]
  constructor
  · linarith
  · linarith

theorem onNewBlockNumber_allReads (t : AppState) (i : String)
    (h : t.inst = some i) (bn ts rem pr : ℕ) (gav eth : String → ℕ) :
    onNewBlockNumber t bn (allReads ts rem pr gav eth)
      = { effects :=
            [.setState
              { t with
                blockNumber := some bn, totalSupply := some ts,
                remaining := some rem, price := some pr },
             .setState
              { t with
                blockNumber := some bn, totalSupply := some ts,
                remaining := some rem, price := some pr,
                ethBalance := bigSum (t.accounts.map fun account => eth account.address),
                gavBalance := bigSum (t.accounts.map fun account => gav account.address),
                accounts := t.accounts.map fun account =>
                  updateAccount account (gav account.address) (eth account.address) }],
          uncaughtRejection := false, thrownSync := false } := by
  unfold onNewBlockNumber allReads
  rw [h]
  simp only [seqOption_map_some, updateAccounts_map]

theorem onNewBlockNumber_global_failure (t : AppState) (i : String)
    (h : t.inst = some i) (bn : ℕ) (reads : ChainReads)
    (hfail : reads.totalSupply = none ∨ reads.remaining = none ∨ reads.price = none) :
    onNewBlockNumber t bn reads
      = { effects := [], uncaughtRejection := true, thrownSync := false } := by
  unfold onNewBlockNumber
  rw [h]
  rcases hfail with hf | hf | hf <;> rw [hf] <;>
    cases hts : reads.totalSupply <;> cases hrem : reads.remaining <;>
    cases hpr : reads.price <;> simp_all

theorem onNewBlockNumber_balance_failure (t : AppState) (i : String)
    (h : t.inst = some i) (bn ts rem pr : ℕ) (reads : ChainReads)
    (hts : reads.totalSupply = some ts) (hrem : reads.remaining = some rem)
    (hpr : reads.price = some pr)
    (hfail : ∃ account ∈ t.accounts,
        reads.balanceOf account.address = none ∨ reads.getBalance account.address = none) :
    onNewBlockNumber t bn reads
      = { effects :=
            [.setState
              { t with
                blockNumber := some bn, totalSupply := some ts,
                remaining := some rem, price := some pr }],
          uncaughtRejection := true, thrownSync := false } := by
  rcases hfail with ⟨account, hmem, hnone⟩
  unfold onNewBlockNumber
  rw [h, hts, hrem, hpr]
  rcases hnone with hn | hn
  · have hseq : seqOption (t.accounts.map fun a => reads.balanceOf a.address) = none :=
      seqOption_map_none _ hmem hn
    simp only [hseq]
  · have hseq : seqOption (t.accounts.map fun a => reads.getBalance a.address) = none :=
      seqOption_map_none _ hmem hn
    simp only [hseq]
    cases hg : seqOption (t.accounts.map fun a => reads.balanceOf a.address) <;> rfl

theorem onNewBlockNumber_setState_inst (t : AppState) (bn : ℕ) (reads : ChainReads) :
    ∀ e ∈ (onNewBlockNumber t bn reads).effects, ∀ u, e = .setState u → u.inst = t.inst := by
  unfold onNewBlockNumber
  cases hinst : t.inst with
  | none => intro e he; simp at he
  | some i =>
      cases hts : reads.totalSupply with
      | none => intro e he; simp at he
      | some ts =>
          cases hrem : reads.remaining with
          | none => intro e he; simp at he
          | some rem =>
              cases hpr : reads.price with
              | none => intro e he; simp at he
              | some pr =>
                  cases hg : seqOption (t.accounts.map fun a => reads.balanceOf a.address) with
                  | none =>
                      intro e he u heq
                      simp only [hg, List.mem_singleton] at he
                      subst he
                      cases heq
                      rfl
                  | some gavBalances =>
                      cases he2 : seqOption (t.accounts.map fun a => reads.getBalance a.address) with
                      | none =>
                          intro e he u heq
                          simp only [hg, he2, List.mem_singleton] at he
                          subst he
                          cases heq
                          rfl
                      | some ethBalances =>
                          intro e he u heq
                          simp only [hg, he2, List.mem_cons, List.mem_singleton,
                            List.not_mem_nil, or_false] at he
                          rcases he with he | he <;> subst he <;> cases heq <;> rfl

theorem applyEffects_onNewBlockNumber_inst (t : AppState) (bn : ℕ) (reads : ChainReads) :
    (applyEffects t (onNewBlockNumber t bn reads).effects).inst = t.inst := by
  unfold onNewBlockNumber
  cases hinst : t.inst with
  | none => exact hinst
  | some i =>
      cases hts : reads.totalSupply with
      | none => exact hinst
      | some ts =>
          cases hrem : reads.remaining with
          | none => exact hinst
          | some rem =>
              cases hpr : reads.price with
              | none => exact hinst
              | some pr =>
                  dsimp only
                  cases hg : seqOption (t.accounts.map fun a => reads.balanceOf a.address) with
                  | none => simp only [hg]; rfl
                  | some gavBalances =>
                      cases he2 : seqOption (t.accounts.map fun a => reads.getBalance a.address) with
                      | none => simp only [hg, he2]; rfl
                      | some ethBalances => simp only [hg, he2]; rfl

theorem attachInterface_allEnv (s : AppState) (r g : String)
    (addresses : List String) (infoOf : String → AccountInfo) :
    attachInterface s (allEnv r g addresses infoOf)
      = [.logInfo ("the registry was found at " ++ r),
         .logInfo ("gavcoin was found at " ++ g),
         .setState
           { s with
             loading := false, address := some g, inst := some g,
             accounts := addresses.map fun address => buildAccount address (infoOf address) },
         .subscribe "eth.blockNumber"] := by
  unfold attachInterface allEnv
  simp only [Option.map_some']
  rw [seqOption_map_some (fun address => buildAccount address (infoOf address)) addresses]

/-- C1 is false as stated on the code: at this concrete input the pass
performs two separate commits, and the state at the first commit point
already shows the pass's global-counter results (blockNumber 7, totalSupply
100, remaining 40, price 2) while the balance results of the same pass (the
total gavBalance 2000000 and the per-account fields) are not yet applied —
a consumer observing between the two commit points sees the global-counter
results without the balance results. -/
theorem c1_intermediate_commit_observable :
    (committedStates (onNewBlockNumber samplePre 7 sampleReads).effects).length = 2
  ∧ ((committedStates (onNewBlockNumber samplePre 7 sampleReads).effects).getD 0
      initialState).totalSupply = some 100
  ∧ ((committedStates (onNewBlockNumber samplePre 7 sampleReads).effects).getD 0
      initialState).blockNumber = some 7
  ∧ ((committedStates (onNewBlockNumber samplePre 7 sampleReads).effects).getD 0
      initialState).gavBalance = 0
  ∧ ((committedStates (onNewBlockNumber samplePre 7 sampleReads).effects).getD 0
      initialState).accounts = samplePre.accounts
  ∧ ((committedStates (onNewBlockNumber samplePre 7 sampleReads).effects).getD 1
      initialState).gavBalance = 2000000 := by
  decide

/-- C1 (amended): a successful synchronization pass does not replace the
Snapshot in one atomic commit; it performs exactly two atomic setState
commits — first the global fields (blockNumber, totalSupply, remaining,
price) while every balance field still holds its pre-pass value, then the
balance totals and per-account fields with the global fields unchanged.
Consumers observing between the two commits see the pass's global-counter
results without its balance results. -/
theorem c1_pass_commits_globals_then_balances (s : AppState) (i : String)
    (bn ts rem pr : ℕ) (gav eth : String → ℕ) :
    ∃ s1 s2 : AppState,
      (onNewBlockNumber { s with inst := some i } bn
          (allReads ts rem pr gav eth)).effects = [.setState s1, .setState s2]
        ∧ s1.blockNumber = some bn ∧ s1.totalSupply = some ts
        ∧ s1.remaining = some rem ∧ s1.price = some pr
        ∧ s1.ethBalance = s.ethBalance ∧ s1.gavBalance = s.gavBalance
        ∧ s1.accounts = s.accounts
        ∧ s2.blockNumber = some bn ∧ s2.totalSupply = some ts
        ∧ s2.remaining = some rem ∧ s2.price = some pr
        ∧ s2.ethBalance = bigSum (s.accounts.map fun account => eth account.address)
        ∧ s2.gavBalance = bigSum (s.accounts.map fun account => gav account.address) := by
  rw [onNewBlockNumber_allReads { s with inst := some i } i rfl bn ts rem pr gav eth]
  exact ⟨_, _, rfl, rfl, rfl, rfl, rfl, rfl, rfl, rfl, rfl, rfl, rfl, rfl, rfl, rfl⟩

/-- C2 is false as stated on the code: at this concrete input the committed
totals are the raw base-unit sums — gavBalance 2000000 (not 2000000 / 10^6)
and ethBalance 5 * 10^18 wei (not converted from wei). -/
theorem c2_totals_are_raw_sums_counterexample :
    ((committedStates (onNewBlockNumber samplePre 7 sampleReads).effects).getD 1
        initialState).gavBalance = 2000000
  ∧ ((committedStates (onNewBlockNumber samplePre 7 sampleReads).effects).getD 1
        initialState).ethBalance = 5000000000000000000
  ∧ ¬ ((((committedStates (onNewBlockNumber samplePre 7 sampleReads).effects).getD 1
        initialState).gavBalance : ℚ) = (2000000 : ℚ) / 10 ^ 6)
  ∧ ¬ ((((committedStates (onNewBlockNumber samplePre 7 sampleReads).effects).getD 1
        initialState).ethBalance : ℚ) = (5000000000000000000 : ℚ) / 10 ^ 18) := by
  refine ⟨by decide, by decide, ?_, ?_⟩
  · intro h
    rw [show ((committedStates (onNewBlockNumber samplePre 7 sampleReads).effects).getD 1
        initialState).gavBalance = 2000000 from by decide] at h
    norm_num at h
  · intro h
    rw [show ((committedStates (onNewBlockNumber samplePre 7 sampleReads).effects).getD 1
        initialState).ethBalance = 5000000000000000000 from by decide] at h
    norm_num at h

/-- C2 (amended): after every committed synchronization pass the Snapshot's
gavBalance total equals the exact sum of all accounts' raw token balances
(in base units, with no division by 10^6) and its ethBalance total equals
the exact sum of all accounts' raw native balances (in wei, with no base
unit conversion), both computed with exact arbitrary-precision
arithmetic. -/
theorem c2_totals_exact_raw_sums (s : AppState) (i : String)
    (bn ts rem pr : ℕ) (gav eth : String → ℕ) :
    ∃ s2 : AppState,
      (onNewBlockNumber { s with inst := some i } bn
          (allReads ts rem pr gav eth)).effects.getLast? = some (.setState s2)
        ∧ s2.gavBalance = (s.accounts.map fun account => gav account.address).sum
        ∧ s2.ethBalance = (s.accounts.map fun account => eth account.address).sum := by
  rw [onNewBlockNumber_allReads { s with inst := some i } i rfl bn ts rem pr gav eth]
  exact ⟨_, rfl, bigSum_eq_sum _, bigSum_eq_sum _⟩

/-- C7: after every committed synchronization pass, every account's hasGav
equals (raw token balance > 0), its displayed token balance is exactly the
raw balance divided by 10^6, and its displayed native balance is the raw
wei amount divided by 10^18 rendered at the 3-decimal display precision —
within 1/2000 of the exact conversion. -/
theorem c7_committed_account_fields (s : AppState) (i : String)
    (bn ts rem pr : ℕ) (gav eth : String → ℕ) :
    ∃ s2 : AppState,
      (onNewBlockNumber { s with inst := some i } bn
          (allReads ts rem pr gav eth)).effects.getLast? = some (.setState s2)
        ∧ s2.accounts = s.accounts.map (fun account =>
            { account with
              ethBalance := some (toFormat 3 (fromWei (eth account.address))),
              gavBalance := some ((gav account.address : ℚ) / 10 ^ 6),
              hasGav := some (decide (0 < gav account.address)) })
        ∧ (∀ wei : ℕ, |toFormat 3 (fromWei wei) - fromWei wei| ≤ 1 / 2000) := by
  rw [onNewBlockNumber_allReads { s with inst := some i } i rfl bn ts rem pr gav eth]
  have hfun : (fun account =>
        updateAccount account (gav account.address) (eth account.address))
      = fun account : Account =>
          { account with
            ethBalance := some (toFormat 3 (fromWei (eth account.address))),
            gavBalance := some ((gav account.address : ℚ) / 10 ^ 6),
            hasGav := some (decide (0 < gav account.address)) } := by
    funext account
    unfold updateAccount DIVISOR
    rw [toFormat_natCast_div_pow 6 (gav account.address)]
  refine ⟨_, rfl, ?_, ?_⟩
  · dsimp only
    rw [hfun]
  · intro wei
    have h := abs_toFormat_sub_le 3 (fromWei wei)
    have heq : (1 : ℚ) / (2 * 10 ^ 3) = 1 / 2000 := by norm_num
    rw [heq] at h
    exact h

theorem onNewBlockNumber_some_inst_shape (t : AppState) (i : String)
    (h : t.inst = some i) (bn : ℕ) (reads : ChainReads) :
    (onNewBlockNumber t bn reads).thrownSync = false
  ∧ ∀ e ∈ (onNewBlockNumber t bn reads).effects, ∃ u, e = .setState u := by
  unfold onNewBlockNumber
  rw [h]
  cases hts : reads.totalSupply with
  | none => exact ⟨rfl, by intro e he; simp at he⟩
  | some ts =>
      cases hrem : reads.remaining with
      | none => exact ⟨rfl, by intro e he; simp at he⟩
      | some rem =>
          cases hpr : reads.price with
          | none => exact ⟨rfl, by intro e he; simp at he⟩
          | some pr =>
              dsimp only
              cases hg : seqOption (t.accounts.map fun a => reads.balanceOf a.address) with
              | none =>
                  refine ⟨by simp [hg], ?_⟩
                  intro e he
                  simp only [hg, List.mem_singleton] at he
                  exact ⟨_, he⟩
              | some gavBalances =>
                  cases he2 : seqOption (t.accounts.map fun a => reads.getBalance a.address) with
                  | none =>
                      refine ⟨by simp [hg, he2], ?_⟩
                      intro e he
                      simp only [hg, he2, List.mem_singleton] at he
                      exact ⟨_, he⟩
                  | some ethBalances =>
                      refine ⟨by simp [hg, he2], ?_⟩
                      intro e he
                      simp only [hg, he2, List.mem_cons, List.not_mem_nil, or_false] at he
                      rcases he with he | he <;> exact ⟨_, he⟩

/-- C3 is false as stated on the code: at this concrete input the global
reads succeed and the token-balance read fails, yet the Snapshot does not
remain at its pre-pass value — the pass commits the new global fields
(blockNumber 7, totalSupply 100) before the balance failure is noticed. -/
theorem c3_partial_commit_on_balance_failure :
    samplePre.blockNumber = none
  ∧ (committedStates (onNewBlockNumber samplePre 7 failingReads).effects).length = 1
  ∧ ((committedStates (onNewBlockNumber samplePre 7 failingReads).effects).getD 0
      initialState).blockNumber = some 7
  ∧ ((committedStates (onNewBlockNumber samplePre 7 failingReads).effects).getD 0
      initialState).totalSupply = some 100 := by
  decide

/-- C3 (amended): if a global-counter read fails the pass commits nothing;
if the global reads succeed and any account balance read fails, the pass
commits the global fields while every balance field keeps its pre-pass
value (a partial update rather than a full abort); in every case the
handler performs no unsubscription, and a subsequent block notification
with successful reads still runs a fresh full pass from the resulting
state. -/
theorem c3_failure_containment (s : AppState) (i : String) (bn : ℕ)
    (reads : ChainReads) :
    ((reads.totalSupply = none ∨ reads.remaining = none ∨ reads.price = none) →
        (onNewBlockNumber { s with inst := some i } bn reads).effects = [])
  ∧ (∀ ts rem pr, reads.totalSupply = some ts → reads.remaining = some rem →
      reads.price = some pr →
      (∃ account ∈ s.accounts,
          reads.balanceOf account.address = none
            ∨ reads.getBalance account.address = none) →
      ∃ s1, (onNewBlockNumber { s with inst := some i } bn reads).effects
          = [.setState s1]
        ∧ s1.accounts = s.accounts ∧ s1.ethBalance = s.ethBalance
        ∧ s1.gavBalance = s.gavBalance ∧ s1.blockNumber = some bn
        ∧ s1.totalSupply = some ts)
  ∧ (∀ e ∈ (onNewBlockNumber { s with inst := some i } bn reads).effects,
      ∀ ev, e ≠ .unsubscribe ev)
  ∧ (∀ bn2 ts rem pr gav eth,
      (committedStates (onNewBlockNumber
          (applyEffects { s with inst := some i }
            (onNewBlockNumber { s with inst := some i } bn reads).effects)
          bn2 (allReads ts rem pr gav eth)).effects).length = 2) := by
  refine ⟨?_, ?_, ?_, ?_⟩
  · intro hfail
    rw [onNewBlockNumber_global_failure { s with inst := some i } i rfl bn reads hfail]
  · intro ts rem pr hts hrem hpr hfail
    rw [onNewBlockNumber_balance_failure { s with inst := some i } i rfl bn ts rem pr
      reads hts hrem hpr hfail]
    exact ⟨_, rfl, rfl, rfl, rfl, rfl, rfl⟩
  · intro e he ev
    obtain ⟨u, rfl⟩ :=
      (onNewBlockNumber_some_inst_shape { s with inst := some i } i rfl bn reads).2 e he
    simp
  · intro bn2 ts rem pr gav eth
    have hinst : (applyEffects { s with inst := some i }
        (onNewBlockNumber { s with inst := some i } bn reads).effects).inst = some i :=
      applyEffects_onNewBlockNumber_inst { s with inst := some i } bn reads
    rw [onNewBlockNumber_allReads _ i hinst bn2 ts rem pr gav eth]
    rfl

theorem c3_failure_containment_witness :
    deadReads.totalSupply = none
  ∧ (onNewBlockNumber { samplePre with inst := some "0xc" } 7 deadReads).effects = []
  ∧ failingReads.totalSupply = some 100
  ∧ (∃ s1, (onNewBlockNumber { samplePre with inst := some "0xc" } 7 failingReads).effects
        = [.setState s1]
      ∧ s1.accounts = samplePre.accounts ∧ s1.ethBalance = samplePre.ethBalance
      ∧ s1.gavBalance = samplePre.gavBalance ∧ s1.blockNumber = some 7
      ∧ s1.totalSupply = some 100) :=
  ⟨rfl,
   (c3_failure_containment samplePre "0xc" 7 deadReads).1 (Or.inl rfl),
   rfl,
   (c3_failure_containment samplePre "0xc" 7 failingReads).2.1 100 40 2 rfl rfl rfl
     ⟨{ address := "0xa", name := "One", balance := 0, ethBalance := none,
        gavBalance := none, hasGav := none },
      List.mem_singleton.mpr rfl, Or.inl rfl⟩⟩

/-- C4 is false as stated on the code: at this concrete failing input the
error arising during the pass is neither caught nor logged — the handler
performs no log effect and its promise chain ends in an uncaught
rejection. -/
theorem c4_error_not_logged :
    (onNewBlockNumber samplePre 7 failingReads).uncaughtRejection = true
  ∧ logsErrorB (onNewBlockNumber samplePre 7 failingReads).effects = false := by
  decide

/-- C4 (amended): for every invocation of the block handler with the
contract binding present, the handler never throws synchronously to the
notifier and performs no logging of any kind; when any read of the pass
fails, the error is not caught — the handler's detached promise chain ends
in an uncaught rejection instead of being propagated to the notifier. -/
theorem c4_no_throw_no_log (s : AppState) (i : String) (bn : ℕ)
    (reads : ChainReads) :
    (onNewBlockNumber { s with inst := some i } bn reads).thrownSync = false
  ∧ (∀ e ∈ (onNewBlockNumber { s with inst := some i } bn reads).effects,
      e ≠ .logError ∧ ∀ msg, e ≠ .logInfo msg)
  ∧ ((reads.totalSupply = none ∨ reads.remaining = none ∨ reads.price = none
      ∨ (∃ account ∈ s.accounts,
          reads.balanceOf account.address = none
            ∨ reads.getBalance account.address = none)) →
      (onNewBlockNumber { s with inst := some i } bn reads).uncaughtRejection = true) := by
  refine ⟨(onNewBlockNumber_some_inst_shape { s with inst := some i } i rfl bn reads).1,
    ?_, ?_⟩
  · intro e he
    obtain ⟨u, rfl⟩ :=
      (onNewBlockNumber_some_inst_shape { s with inst := some i } i rfl bn reads).2 e he
    exact ⟨by simp, by simp⟩
  · intro hfail
    rcases hfail with hf | hf | hf | hf
    · rw [onNewBlockNumber_global_failure { s with inst := some i } i rfl bn reads (Or.inl hf)]
    · rw [onNewBlockNumber_global_failure { s with inst := some i } i rfl bn reads
        (Or.inr (Or.inl hf))]
    · rw [onNewBlockNumber_global_failure { s with inst := some i } i rfl bn reads
        (Or.inr (Or.inr hf))]
    · cases hts : reads.totalSupply with
      | none =>
          rw [onNewBlockNumber_global_failure { s with inst := some i } i rfl bn reads
            (Or.inl hts)]
      | some ts =>
          cases hrem : reads.remaining with
          | none =>
              rw [onNewBlockNumber_global_failure { s with inst := some i } i rfl bn reads
                (Or.inr (Or.inl hrem))]
          | some rem =>
              cases hpr : reads.price with
              | none =>
                  rw [onNewBlockNumber_global_failure { s with inst := some i } i rfl bn
                    reads (Or.inr (Or.inr hpr))]
              | some pr =>
                  rw [onNewBlockNumber_balance_failure { s with inst := some i } i rfl bn
                    ts rem pr reads hts hrem hpr hf]

theorem c4_no_throw_no_log_witness :
    failingReads.balanceOf "0xa" = none
  ∧ (onNewBlockNumber { samplePre with inst := some "0xc" } 7 failingReads).thrownSync = false
  ∧ (onNewBlockNumber { samplePre with inst := some "0xc" } 7
      failingReads).uncaughtRejection = true :=
  ⟨rfl,
   (c4_no_throw_no_log samplePre "0xc" 7 failingReads).1,
   (c4_no_throw_no_log samplePre "0xc" 7 failingReads).2.2
     (Or.inr (Or.inr (Or.inr
       ⟨{ address := "0xa", name := "One", balance := 0, ethBalance := none,
          gavBalance := none, hasGav := none },
        List.mem_singleton.mpr rfl, Or.inl rfl⟩)))⟩

/-- C5: if any step of the startup sequence fails before the initial
Snapshot is published — registry resolution, contract lookup, or account
enumeration (including a listed address missing from the info mapping) —
then no state is ever published (so loading remains true), no subscription
to block notifications is made, and the error is logged by the final
catch. -/
theorem c5_startup_failure_gates_session (env : StartupEnv)
    (h : startupFailsB env = true) :
    publishesB (attachInterface initialState env) = false
  ∧ subscribesB (attachInterface initialState env) = false
  ∧ logsErrorB (attachInterface initialState env) = true
  ∧ (applyEffects initialState (attachInterface initialState env)).loading = true := by
  unfold attachInterface
  cases hreg : env.registryAddress with
  | none => exact ⟨rfl, rfl, rfl, rfl⟩
  | some r =>
      cases hga : env.getAddress with
      | none => exact ⟨rfl, rfl, rfl, rfl⟩
      | some g =>
          cases hla : env.listAccounts with
          | none => exact ⟨rfl, rfl, rfl, rfl⟩
          | some addresses =>
              cases hai : env.accountsInfo with
              | none => exact ⟨rfl, rfl, rfl, rfl⟩
              | some infos =>
                  have hany : (addresses.any fun address => (infos address).isNone)
                      = true := by
                    unfold startupFailsB at h
                    rw [hreg, hga, hla, hai] at h
                    exact h
                  obtain ⟨address, hmem, hnone⟩ := List.any_eq_true.mp hany
                  have haddr : infos address = none :=
                    Option.isNone_iff_eq_none.mp hnone
                  have hseq : seqOption
                      (addresses.map fun addr => (infos addr).map (buildAccount addr))
                        = none :=
                    seqOption_map_none _ hmem (by rw [haddr]; rfl)
                  dsimp only
                  rw [hseq]
                  exact ⟨rfl, rfl, rfl, rfl⟩

theorem c5_startup_failure_gates_session_witness :
    startupFailsB failEnv = true
  ∧ publishesB (attachInterface initialState failEnv) = false
  ∧ subscribesB (attachInterface initialState failEnv) = false
  ∧ logsErrorB (attachInterface initialState failEnv) = true
  ∧ (applyEffects initialState (attachInterface initialState failEnv)).loading = true :=
  ⟨rfl, c5_startup_failure_gates_session failEnv rfl⟩

/-- C9: the startup sequence (run once from componentDidMount) is ordered —
on success its effect trace is exactly: log the resolved registry address,
log the resolved contract address, one setState publishing the initial
Snapshot with loading false, the contract binding and the enumerated
accounts, and then exactly one subscription to eth.blockNumber; and in
general a subscription only ever happens when the publish happened and no
startup step failed, so no synchronization pass is possible before all of
these complete. -/
theorem c9_startup_order_and_gating (r g : String) (addresses : List String)
    (infoOf : String → AccountInfo) :
    (∃ s', componentDidMount initialState (allEnv r g addresses infoOf)
        = [.logInfo ("the registry was found at " ++ r),
           .logInfo ("gavcoin was found at " ++ g),
           .setState s', .subscribe "eth.blockNumber"]
      ∧ s'.loading = false ∧ s'.address = some g ∧ s'.inst = some g
      ∧ s'.accounts = addresses.map fun address => buildAccount address (infoOf address))
  ∧ (∀ env : StartupEnv, subscribesB (componentDidMount initialState env) = true →
      publishesB (componentDidMount initialState env) = true
      ∧ startupFailsB env = false) := by
  constructor
  · rw [show componentDidMount initialState (allEnv r g addresses infoOf)
          = attachInterface initialState (allEnv r g addresses infoOf) from rfl,
      attachInterface_allEnv]
    exact ⟨_, rfl, rfl, rfl, rfl, rfl⟩
  · intro env hsub
    unfold componentDidMount attachInterface at hsub ⊢
    cases hreg : env.registryAddress with
    | none => rw [hreg] at hsub; simp [subscribesB] at hsub
    | some r' =>
        cases hga : env.getAddress with
        | none => rw [hreg, hga] at hsub; simp [subscribesB] at hsub
        | some g' =>
            cases hla : env.listAccounts with
            | none => rw [hreg, hga, hla] at hsub; simp [subscribesB] at hsub
            | some addrs =>
                cases hai : env.accountsInfo with
                | none => rw [hreg, hga, hla, hai] at hsub; simp [subscribesB] at hsub
                | some infos =>
                    cases hs : seqOption
                        (addrs.map fun addr => (infos addr).map (buildAccount addr)) with
                    | none =>
                        rw [hreg, hga, hla, hai] at hsub
                        dsimp only at hsub
                        rw [hs] at hsub
                        simp [subscribesB] at hsub
                    | some accounts =>
                        dsimp only
                        rw [hs]
                        refine ⟨rfl, ?_⟩
                        unfold startupFailsB
                        rw [hreg, hga, hla, hai]
                        dsimp only
                        simp only [List.any_eq_false]
                        intro address hmem
                        have hsome := seqOption_map_isSome _ hs address hmem
                        cases hi : infos address with
                        | none => rw [hi] at hsome; simp at hsome
                        | some info => simp [hi]

theorem c9_startup_order_and_gating_witness :
    subscribesB (componentDidMount initialState emptyLabelEnv) = true
  ∧ publishesB (componentDidMount initialState emptyLabelEnv) = true
  ∧ startupFailsB emptyLabelEnv = false :=
  ⟨rfl,
   (c9_startup_order_and_gating "0xr" "0xg" ["0xa"] emptyLabelInfo).2 emptyLabelEnv rfl⟩

theorem runActionOps_mem (ops : List ActionOp) (h : opsWellFormed ops = true) :
    ∀ s : AppState,
      (s.action = none ∨ s.action = some "BuyIn" ∨ s.action = some "Refund"
        ∨ s.action = some "Transfer") →
      ((runActionOps s ops).action = none
        ∨ (runActionOps s ops).action = some "BuyIn"
        ∨ (runActionOps s ops).action = some "Refund"
        ∨ (runActionOps s ops).action = some "Transfer") := by
  induction ops with
  | nil => intro s hs; exact hs
  | cons op ops ih =>
      intro s hs
      rw [opsWellFormed, List.all_cons, Bool.and_eq_true] at h
      have hstep := ih h.2 (applyActionOp s op)
      refine hstep ?_
      cases op with
      | closeA => left; rfl
      | openA kind =>
          have hkind : kind = "BuyIn" ∨ kind = "Refund" ∨ kind = "Transfer" := by
            have hk := h.1
            simp [actionKinds, List.contains] at hk
            exact hk
          rcases hkind with hk | hk | hk <;> subst hk <;>
            simp [applyActionOp, onAction]

/-- C6: starting from the initial None state, after any finite sequence of
open and close calls whose opens use kinds drawn from
{BuyIn, Refund, Transfer}, the single action field holds exactly one of
{None, BuyIn, Refund, Transfer}; open(kind) moves any state to kind
(discarding whatever was open, with no other state change) and close()
moves any state to None. -/
theorem c6_action_exclusivity (s : AppState) (ops : List ActionOp)
    (h0 : s.action = none) (h : opsWellFormed ops = true) :
    ((runActionOps s ops).action = none
      ∨ (runActionOps s ops).action = some "BuyIn"
      ∨ (runActionOps s ops).action = some "Refund"
      ∨ (runActionOps s ops).action = some "Transfer")
  ∧ (∀ t : AppState, ∀ kind, (onAction t kind).action = some kind
      ∧ (onAction t kind).accounts = t.accounts
      ∧ (onAction t kind).loading = t.loading)
  ∧ (∀ t : AppState, (onActionClose t).action = none) :=
  ⟨runActionOps_mem ops h s (Or.inl h0),
   fun _ _ => ⟨rfl, rfl, rfl⟩,
   fun _ => rfl⟩

theorem c6_action_exclusivity_witness :
    initialState.action = none
  ∧ opsWellFormed
      [ActionOp.openA "BuyIn", ActionOp.closeA, ActionOp.openA "Transfer"] = true
  ∧ ((runActionOps initialState
        [ActionOp.openA "BuyIn", ActionOp.closeA, ActionOp.openA "Transfer"]).action = none
      ∨ (runActionOps initialState
          [ActionOp.openA "BuyIn", ActionOp.closeA, ActionOp.openA "Transfer"]).action
            = some "BuyIn"
      ∨ (runActionOps initialState
          [ActionOp.openA "BuyIn", ActionOp.closeA, ActionOp.openA "Transfer"]).action
            = some "Refund"
      ∨ (runActionOps initialState
          [ActionOp.openA "BuyIn", ActionOp.closeA, ActionOp.openA "Transfer"]).action
            = some "Transfer") :=
  ⟨rfl, rfl,
   (c6_action_exclusivity initialState
     [ActionOp.openA "BuyIn", ActionOp.closeA, ActionOp.openA "Transfer"] rfl rfl).1⟩

/-- C8 is false as stated on the code: when the identity store's label for
an address is present but empty, the constructed Account's name is the
sentinel Unnamed rather than the store's label. -/
theorem c8_empty_label_counterexample :
    (emptyLabelInfo "0xa").name = some ""
  ∧ (committedStates (attachInterface initialState emptyLabelEnv)).length = 1
  ∧ ((committedStates (attachInterface initialState emptyLabelEnv)).getD 0
      initialState).accounts
        = [{ address := "0xa", name := "Unnamed", balance := 0,
             ethBalance := none, gavBalance := none, hasGav := none }]
  ∧ ("Unnamed" : String) ≠ "" := by
  refine ⟨rfl, rfl, rfl, by decide⟩

/-- C8 (amended): account enumeration at startup produces, for every
address returned by the identity store, an Account whose name is the
store's label when that label is a non-empty string and the sentinel
Unnamed when the label is absent or empty (both are falsy under the
JS fallback), with balance zero, no formatted balance fields, and hasGav
unset — reading as false. -/
theorem c8_enumeration_amended (r g : String) (addresses : List String)
    (infoOf : String → AccountInfo) :
    (∃ s', committedStates
          (attachInterface initialState (allEnv r g addresses infoOf)) = [s']
      ∧ s'.accounts = addresses.map fun address => buildAccount address (infoOf address))
  ∧ (∀ address info,
      (buildAccount address info).address = address
    ∧ (buildAccount address info).balance = 0
    ∧ (buildAccount address info).ethBalance = none
    ∧ (buildAccount address info).gavBalance = none
    ∧ jsTruthyBool (buildAccount address info).hasGav = false
    ∧ (info.name = none → (buildAccount address info).name = "Unnamed")
    ∧ (info.name = some "" → (buildAccount address info).name = "Unnamed")
    ∧ (∀ nm, info.name = some nm → nm ≠ "" → (buildAccount address info).name = nm)) := by
  constructor
  · rw [attachInterface_allEnv]
    exact ⟨_, rfl, rfl⟩
  · intro address info
    refine ⟨rfl, rfl, rfl, rfl, rfl, ?_, ?_, ?_⟩
    · intro hn; simp [buildAccount, stringOr, hn]
    · intro hn; simp [buildAccount, stringOr, hn]
    · intro nm hn hne; simp [buildAccount, stringOr, hn, hne]

theorem c8_enumeration_amended_witness :
    ({ name := some "Bob" } : AccountInfo).name = some "Bob"
  ∧ ("Bob" : String) ≠ ""
  ∧ (buildAccount "0xa" { name := some "Bob" }).name = "Bob"
  ∧ jsTruthyBool (buildAccount "0xa" { name := some "Bob" }).hasGav = false
  ∧ ({ name := none } : AccountInfo).name = none
  ∧ (buildAccount "0xb" { name := none }).name = "Unnamed" :=
  ⟨rfl, by decide,
   ((c8_enumeration_amended "0xr" "0xg" [] (fun _ => { name := none })).2 "0xa"
       { name := some "Bob" }).2.2.2.2.2.2.2 "Bob" rfl (by decide),
   ((c8_enumeration_amended "0xr" "0xg" [] (fun _ => { name := none })).2 "0xa"
       { name := some "Bob" }).2.2.2.2.1,
   rfl,
   ((c8_enumeration_amended "0xr" "0xg" [] (fun _ => { name := none })).2 "0xb"
       { name := none }).2.2.2.2.2.1 rfl⟩

/-- C10: requestAction stores any value in the action field, and for every
value outside {BuyIn, Refund, Transfer} the rendered modal output is
exactly the no-modal output of the None state; a subsequent close still
yields None. -/
theorem c10_unknown_action_renders_none (s : AppState) (v : String)
    (h : actionKinds.contains v = false) :
    (onAction s v).action = some v
  ∧ renderModals (onAction s v) = none
  ∧ renderModals { s with action := none } = none
  ∧ renderModals (onAction s v) = renderModals { s with action := none }
  ∧ (onActionClose (onAction s v)).action = none := by
  have hv : ¬ (v = "BuyIn") ∧ ¬ (v = "Refund") ∧ ¬ (v = "Transfer") := by
    simp [actionKinds, List.contains] at h
    exact h
  refine ⟨rfl, ?_, rfl, ?_, rfl⟩
  · simp [renderModals, onAction, hv.1, hv.2.1, hv.2.2]
  · simp [renderModals, onAction, hv.1, hv.2.1, hv.2.2]

theorem c10_unknown_action_renders_none_witness :
    actionKinds.contains "SelfDestruct" = false
  ∧ (onAction initialState "SelfDestruct").action = some "SelfDestruct"
  ∧ renderModals (onAction initialState "SelfDestruct") = none
  ∧ renderModals { initialState with action := none } = none
  ∧ (onActionClose (onAction initialState "SelfDestruct")).action = none :=
  ⟨rfl,
   (c10_unknown_action_renders_none initialState "SelfDestruct" rfl).1,
   (c10_unknown_action_renders_none initialState "SelfDestruct" rfl).2.1,
   (c10_unknown_action_renders_none initialState "SelfDestruct" rfl).2.2.1,
   (c10_unknown_action_renders_none initialState "SelfDestruct" rfl).2.2.2.2⟩

end Gavcoin
